import Mathlib

/-!
Verification development for the dotti repository core:
the recommendation engine (src/recommender/agent-recommender.ts),
the Windsurf serializer (src/adapters/windsurf-adapter.ts),
the validator (src/validator/index.ts), the conflict analyzer
(src/fixer/index.ts) and the prune analyzer (src/pruner/index.ts),
shallowly embedded in Lean 4.

Modelling conventions:
* TypeScript strings are modelled as Lean `String`; where character-level
  reasoning is needed the underlying `List Char` is used.  JavaScript
  `.length` counts UTF-16 code units while `List Char` counts code points;
  these agree on all literals appearing in the source.
* JavaScript exceptions are modelled with `Except String`.
* Node `path.isAbsolute` / `path.join` are modelled with their POSIX
  behaviour; the glob resolver itself is an external collaborator and is
  passed in as a function argument.
* `Array.prototype.sort` is stable (ECMAScript 2019), so the engine sort
  is embedded as a stable insertion sort on the comparator used by the
  source (`(a, b) => b.confidence - a.confidence`).
-/

-- ─────────────────────────────────────────────────────────────
-- Shared data model (src/types/index.ts)
-- ─────────────────────────────────────────────────────────────

/-- The destination tools (type ToolTarget in src/types/index.ts). -/
inductive ToolTarget where
  | claude | cursor | codex | copilot | windsurf | gemini | amp
deriving DecidableEq, Inhabited

/-- Issue severity, "error" | "warning". -/
inductive Severity where
  | error | warning
deriving DecidableEq, Inhabited

/-- Agent categories (type AgentCategory in src/types/index.ts). -/
inductive AgentCategory where
  | review | testing | database | security | ui | api | devops | docs | perf | general
deriving DecidableEq, Inhabited

/-- A named tool entry of the tech stack (framework, testing tool, ...);
only the `name` field is consulted by the recommendation engine. -/
structure ToolInfo where
  name : String
deriving DecidableEq, Inhabited

/-- A detected language: `name` and `extensions` are the fields the
agent templates read. -/
structure LanguageInfo where
  name : String
  extensions : List String
deriving DecidableEq, Inhabited

/-- The tech-stack part of a ScanResult, restricted to the fields the
agent templates consult. -/
structure TechStack where
  languages : List LanguageInfo
  frameworks : List ToolInfo
  testing : List ToolInfo
  database : List ToolInfo
  styling : List ToolInfo
  deployment : List ToolInfo
deriving DecidableEq, Inhabited

/-- The file-tree part of a ScanResult, restricted to the fields the
agent templates consult. -/
structure FileTreeFacts where
  totalFiles : Nat
  significantPaths : List String
deriving DecidableEq, Inhabited

/-- The snapshot consumed by the recommendation engine (ScanResult). -/
structure ScanResult where
  techStack : TechStack
  fileTree : FileTreeFacts
deriving DecidableEq, Inhabited

/-- An agent recommendation (interface AgentRecommendation). -/
structure AgentRecommendation where
  id : String
  name : String
  description : String
  confidence : Nat
  reason : String
  triggers : List String
  capabilities : List String
  relevantFiles : List String
  estimatedTokens : Nat
  category : AgentCategory
deriving DecidableEq, Inhabited

/-- The part of an AgentRecommendation produced by a template's
generate function (Omit of id/name/confidence/category/estimatedTokens). -/
structure AgentDetails where
  description : String
  reason : String
  triggers : List String
  capabilities : List String
  relevantFiles : List String
deriving DecidableEq, Inhabited

/-- An agent template (interface AgentTemplate in agent-recommender.ts). -/
structure AgentTemplate where
  id : String
  name : String
  category : AgentCategory
  shouldRecommend : ScanResult → Nat
  generate : ScanResult → AgentDetails

/-- The fixed chars-per-token ratio (CHARS_PER_TOKEN in
src/utils/tokens.ts). -/
def CHARS_PER_TOKEN : Nat := 4

/-- estimateTokens (src/utils/tokens.ts):
`Math.ceil(text.length / CHARS_PER_TOKEN)`; on natural numbers the
ceiling division by 4 is `(n + 4 - 1) / 4`. -/
def estimateTokens (text : String) : Nat :=
  (text.length + CHARS_PER_TOKEN - 1) / CHARS_PER_TOKEN

/-- JavaScript `a || b` on strings (empty string is falsy). -/
def jsOr (a b : String) : String :=
  if a = "" then b else a

/-- `option?.name || alt` for an optional tool entry. -/
def optToolName (o : Option ToolInfo) (alt : String) : String :=
  jsOr ((o.map ToolInfo.name).getD "") alt

-- ─────────────────────────────────────────────────────────────
-- The agent template catalog (AGENT_TEMPLATES, agent-recommender.ts 18-271)
-- ─────────────────────────────────────────────────────────────

/-- Code Reviewer template. -/
def codeReviewerTemplate : AgentTemplate where
  id := "code-reviewer"
  name := "Code Reviewer"
  category := .review
  shouldRecommend := fun _ => 90
  generate := fun scan =>
    let langs := String.intercalate ", " (scan.techStack.languages.map (·.name))
    let frameworks := String.intercalate ", " (scan.techStack.frameworks.map (·.name))
    { description := "Review code for " ++ langs ++ " best practices" ++
        (if frameworks = "" then "" else ", " ++ frameworks ++ " patterns") ++
        ", and common bugs. Focus on readability, maintainability, and type safety."
      reason := "Core languages: " ++ langs ++ ". Code review catches bugs before they ship."
      triggers := ["review", "check code", "PR review", "code quality", "refactor"]
      capabilities := [
        "Identify anti-patterns and code smells",
        "Suggest performance improvements",
        "Check type safety and error handling",
        "Enforce consistent coding style"]
      relevantFiles := scan.techStack.languages.flatMap
        (fun l => l.extensions.map (fun e => "**/*" ++ e)) }

/-- Test Writer template. -/
def testWriterTemplate : AgentTemplate where
  id := "test-writer"
  name := "Test Writer"
  category := .testing
  shouldRecommend := fun scan =>
    if scan.techStack.testing.length > 0 then 88
    else if scan.techStack.frameworks.length > 0 then 70
    else 50
  generate := fun scan =>
    let testTools := scan.techStack.testing.map (·.name)
    let testFramework :=
      if testTools.length > 0 then String.intercalate " + " testTools
      else "your testing framework"
    { description := "Write and update tests using " ++ testFramework ++
        ". Generate unit tests, integration tests, and test fixtures following existing test patterns."
      reason := "Testing tools detected: " ++
        jsOr (String.intercalate ", " testTools) "none (recommendation for quality)"
      triggers := ["write test", "add tests", "test coverage", "unit test",
        "integration test", "fix test"]
      capabilities := [
        "Generate " ++ String.intercalate "/" testTools ++ " test files",
        "Create test fixtures and mocks",
        "Improve test coverage for uncovered code",
        "Fix failing tests"]
      relevantFiles := ["**/*.test.*", "**/*.spec.*", "**/__tests__/**", "**/tests/**"] }

/-- Database Expert template. -/
def dbExpertTemplate : AgentTemplate where
  id := "db-expert"
  name := "Database Expert"
  category := .database
  shouldRecommend := fun scan =>
    if scan.techStack.database.length > 0 then 85
    else if scan.fileTree.significantPaths.contains "Database migrations" then 80
    else 0
  generate := fun scan =>
    let dbs := scan.techStack.database.map (·.name)
    { description := "Manage database schema, migrations, and queries using " ++
        String.intercalate ", " dbs ++
        ". Optimize queries, handle migrations safely, and maintain data integrity."
      reason := "Database tools detected: " ++ String.intercalate ", " dbs
      triggers := ["migration", "schema", "query", "database", "db", "seed", "index"]
      capabilities := [
        "Create and modify " ++ String.intercalate "/" dbs ++ " schemas",
        "Generate safe migrations",
        "Optimize slow queries",
        "Create seed data and fixtures"]
      relevantFiles := ["**/prisma/**", "**/drizzle/**", "**/migrations/**",
        "**/seeds/**", "**/*.sql"] }

/-- Security Auditor template. -/
def securityAuditorTemplate : AgentTemplate where
  id := "security-auditor"
  name := "Security Auditor"
  category := .security
  shouldRecommend := fun scan =>
    let hasApi := scan.techStack.frameworks.any (fun f =>
      (["Express", "Fastify", "Hono", "Next.js", "Nuxt", "Remix", "Astro"] : List String).contains f.name)
    if hasApi then 78 else 45
  generate := fun scan =>
    let frameworks := scan.techStack.frameworks.map (·.name)
    { description := "Audit code for security vulnerabilities specific to " ++
        String.intercalate ", " frameworks ++
        ". Check for XSS, CSRF, injection attacks, auth bypass, insecure dependencies, and exposed secrets."
      reason := "Web framework detected: " ++ String.intercalate ", " frameworks ++
        ". Security review is critical."
      triggers := ["security", "vulnerability", "XSS", "CSRF", "injection", "auth",
        "CVE", "secrets"]
      capabilities := [
        "Scan for OWASP Top 10 vulnerabilities",
        "Check authentication and authorization flows",
        "Detect hardcoded secrets and API keys",
        "Review dependency security advisories"]
      relevantFiles := ["**/*.ts", "**/*.js", "**/.env*", "**/auth/**", "**/api/**"] }

/-- Component Designer template. -/
def componentDesignerTemplate : AgentTemplate where
  id := "component-designer"
  name := "Component Designer"
  category := .ui
  shouldRecommend := fun scan =>
    let hasFrontend := scan.techStack.frameworks.any (fun f =>
      (["React", "Vue", "Svelte", "Angular", "Next.js", "Nuxt", "SvelteKit",
        "Remix", "Astro"] : List String).contains f.name)
    let hasStyling := scan.techStack.styling.length > 0
    if hasFrontend && hasStyling then 82
    else if hasFrontend then 68
    else 0
  generate := fun scan =>
    let framework := scan.techStack.frameworks.find? (fun f =>
      (["React", "Vue", "Svelte", "Angular"] : List String).contains f.name)
    let styling := scan.techStack.styling.map (·.name)
    { description := "Design and build " ++ optToolName framework "UI" ++
        " components using " ++ jsOr (String.intercalate " + " styling) "CSS" ++
        ". Create accessible, responsive, and reusable components following project conventions."
      reason := "Frontend: " ++ optToolName framework "detected" ++ ", Styling: " ++
        jsOr (String.intercalate ", " styling) "detected"
      triggers := ["component", "UI", "design", "layout", "responsive", "accessible", "style"]
      capabilities := [
        "Build " ++ optToolName framework "UI" ++ " components",
        "Style with " ++ jsOr (String.intercalate "/" styling) "CSS",
        "Ensure WCAG accessibility compliance",
        "Create responsive layouts"]
      relevantFiles := ["**/*.tsx", "**/*.jsx", "**/*.vue", "**/*.svelte", "**/*.css"] }

/-- API Developer template. -/
def apiDeveloperTemplate : AgentTemplate where
  id := "api-developer"
  name := "API Developer"
  category := .api
  shouldRecommend := fun scan =>
    let hasBackend := scan.techStack.frameworks.any (fun f =>
      (["Express", "Fastify", "Hono", "Next.js", "Nuxt", "Remix"] : List String).contains f.name)
    if hasBackend then 80 else 0
  generate := fun scan =>
    let backend := scan.techStack.frameworks.find? (fun f =>
      (["Express", "Fastify", "Hono", "Next.js"] : List String).contains f.name)
    { description := "Build and maintain API endpoints using " ++
        optToolName backend "your framework" ++
        ". Design RESTful or GraphQL APIs with proper validation, error handling, and documentation."
      reason := "Backend framework: " ++ optToolName backend "detected"
      triggers := ["API", "endpoint", "route", "handler", "REST", "GraphQL", "middleware"]
      capabilities := [
        "Design API endpoints with proper HTTP methods",
        "Implement request validation and error handling",
        "Generate API documentation",
        "Create middleware and guards"]
      relevantFiles := ["**/api/**", "**/routes/**", "**/handlers/**", "**/middleware/**"] }

/-- DevOps Helper template. -/
def devopsHelperTemplate : AgentTemplate where
  id := "devops-helper"
  name := "DevOps Helper"
  category := .devops
  shouldRecommend := fun scan =>
    if scan.techStack.deployment.length > 0 then 72 else 0
  generate := fun scan =>
    let tools := scan.techStack.deployment.map (·.name)
    { description := "Manage CI/CD pipelines, Docker configurations, and deployment using " ++
        String.intercalate ", " tools ++
        ". Optimize build times, configure environments, and handle infrastructure as code."
      reason := "Deployment tools: " ++ String.intercalate ", " tools
      triggers := ["deploy", "CI/CD", "pipeline", "Docker", "build", "release", "environment"]
      capabilities := [
        "Configure " ++ String.intercalate "/" tools ++ " pipelines",
        "Optimize Docker builds",
        "Manage environment variables",
        "Set up deployment workflows"]
      relevantFiles := [".github/workflows/**", "**/Dockerfile*", "**/docker-compose*",
        "**/terraform/**", "**/*.yaml"] }

/-- Performance Optimizer template. -/
def perfOptimizerTemplate : AgentTemplate where
  id := "perf-optimizer"
  name := "Performance Optimizer"
  category := .perf
  shouldRecommend := fun scan =>
    let hasFrontend := scan.techStack.frameworks.any (fun f =>
      (["React", "Next.js", "Vue", "Nuxt", "Svelte", "SvelteKit"] : List String).contains f.name)
    if hasFrontend && scan.fileTree.totalFiles > 50 then 65 else 0
  generate := fun scan =>
    let framework := scan.techStack.frameworks.head?
    { description := "Optimize performance for " ++ optToolName framework "your app" ++
        ". Analyze bundle size, identify render bottlenecks, optimize images, and improve Core Web Vitals."
      reason := optToolName framework "Frontend" ++ " app with " ++
        toString scan.fileTree.totalFiles ++ " files — performance matters at scale."
      triggers := ["performance", "slow", "optimize", "bundle", "lazy load", "cache",
        "Core Web Vitals"]
      capabilities := [
        "Identify and fix render bottlenecks",
        "Optimize bundle size and code splitting",
        "Improve Core Web Vitals scores",
        "Set up caching strategies"]
      relevantFiles := ["**/*.tsx", "**/*.jsx", "**/next.config.*", "**/vite.config.*"] }

/-- Documentation Writer template. -/
def docsWriterTemplate : AgentTemplate where
  id := "docs-writer"
  name := "Documentation Writer"
  category := .docs
  shouldRecommend := fun scan =>
    if scan.fileTree.totalFiles > 30 then 55 else 30
  generate := fun scan =>
    { description := "Write and maintain project documentation including README, API docs, guides, and inline code comments. Follow the project's existing documentation style."
      reason := "Project has " ++ toString scan.fileTree.totalFiles ++
        " files — documentation helps onboarding."
      triggers := ["document", "README", "docs", "comment", "explain", "guide", "API docs"]
      capabilities := [
        "Generate comprehensive README files",
        "Write API documentation",
        "Add JSDoc/TSDoc comments to code",
        "Create onboarding guides"]
      relevantFiles := ["**/*.md", "**/docs/**", "README*"] }

/-- The fixed agent catalog, in declaration order (AGENT_TEMPLATES). -/
def AGENT_TEMPLATES : List AgentTemplate :=
  [codeReviewerTemplate, testWriterTemplate, dbExpertTemplate, securityAuditorTemplate,
   componentDesignerTemplate, apiDeveloperTemplate, devopsHelperTemplate,
   perfOptimizerTemplate, docsWriterTemplate]

-- ─────────────────────────────────────────────────────────────
-- The recommendation engine (recommendAgents, agent-recommender.ts 277-299)
-- ─────────────────────────────────────────────────────────────

/-- Builds the recommendation record pushed by the engine loop for one
template whose confidence passed the threshold. -/
def materializeTemplate (t : AgentTemplate) (confidence : Nat) (scan : ScanResult) :
    AgentRecommendation :=
  let details := t.generate scan
  { id := t.id
    name := t.name
    confidence := confidence
    category := t.category
    estimatedTokens :=
      estimateTokens (details.description ++ String.intercalate " " details.capabilities)
    description := details.description
    reason := details.reason
    triggers := details.triggers
    capabilities := details.capabilities
    relevantFiles := details.relevantFiles }

/-- The engine loop before sorting: every template is scored, templates
below the fixed threshold 40 are skipped, the rest are materialized in
catalog declaration order. -/
def candidateRecs (scan : ScanResult) : List AgentRecommendation :=
  AGENT_TEMPLATES.filterMap (fun t =>
    let confidence := t.shouldRecommend scan
    if confidence < 40 then none
    else some (materializeTemplate t confidence scan))

/-- Stable insertion (descending confidence): the new element goes in
front of the first element whose confidence is not larger.  Together with
`sortByConfidenceDesc` this is the unique stable descending sort, i.e. the
behaviour of the stable `Array.prototype.sort` under the comparator
`(a, b) => b.confidence - a.confidence` used at line 298. -/
def insertByConfidence (r : AgentRecommendation) :
    List AgentRecommendation → List AgentRecommendation
  | [] => [r]
  | x :: xs =>
    if x.confidence ≤ r.confidence then r :: x :: xs
    else x :: insertByConfidence r xs

/-- Stable sort by descending confidence. -/
def sortByConfidenceDesc (l : List AgentRecommendation) : List AgentRecommendation :=
  l.foldr insertByConfidence []

/-- recommendAgents: score, threshold-filter, materialize, then sort by
descending confidence (agent-recommender.ts 277-299). -/
def recommendAgents (scan : ScanResult) : List AgentRecommendation :=
  sortByConfidenceDesc (candidateRecs scan)

/-- The empty snapshot (no detected tooling, no files). -/
def emptyScan : ScanResult :=
  { techStack :=
    { languages := [], frameworks := [], testing := [], database := [],
      styling := [], deployment := [] }
    fileTree := { totalFiles := 0, significantPaths := [] } }

-- ─────────────────────────────────────────────────────────────
-- Sorting lemmas for the engine
-- ─────────────────────────────────────────────────────────────

theorem mem_insertByConfidence {r y : AgentRecommendation}
    {l : List AgentRecommendation} :
    y ∈ insertByConfidence r l ↔ y = r ∨ y ∈ l := by
  induction l with
  | nil => simp [insertByConfidence]
  | cons x xs ih =>
    simp only [insertByConfidence]
    split
    · simp [or_comm, or_assoc, or_left_comm]
    · simp [ih, or_comm, or_assoc, or_left_comm]

theorem sorted_insertByConfidence {r : AgentRecommendation}
    {l : List AgentRecommendation}
    (h : l.Pairwise (fun a b => b.confidence ≤ a.confidence)) :
    (insertByConfidence r l).Pairwise (fun a b => b.confidence ≤ a.confidence) := by
  induction l with
  | nil => simp [insertByConfidence]
  | cons x xs ih =>
    rcases List.pairwise_cons.mp h with ⟨hx, hxs⟩
    simp only [insertByConfidence]
    split
    · rename_i hle
      refine List.pairwise_cons.mpr ⟨?_, h⟩
      intro y hy
      rcases List.mem_cons.mp hy with rfl | hy
      · exact hle
      · exact le_trans (hx y hy) hle
    · rename_i hgt
      push_neg at hgt
      refine List.pairwise_cons.mpr ⟨?_, ih hxs⟩
      intro y hy
      rcases mem_insertByConfidence.mp hy with rfl | hy
      · exact le_of_lt hgt
      · exact hx y hy

theorem filter_insertByConfidence (r : AgentRecommendation)
    (l : List AgentRecommendation) (c : Nat) :
    (insertByConfidence r l).filter (fun x => x.confidence == c) =
      if r.confidence = c then
        r :: l.filter (fun x => x.confidence == c)
      else l.filter (fun x => x.confidence == c) := by
  induction l with
  | nil =>
    simp only [insertByConfidence, List.filter]
    by_cases h : r.confidence = c
    · simp [h]
    · have : (r.confidence == c) = false := by simp [beq_iff_eq, h]
      simp [this, h]
  | cons x xs ih =>
    simp only [insertByConfidence]
    split
    · rename_i hle
      by_cases h : r.confidence = c
      · simp [List.filter, h]
      · simp only [List.filter_cons]
        have : (r.confidence == c) = false := by simp [beq_iff_eq, h]
        simp [this, h]
    · rename_i hgt
      push_neg at hgt
      by_cases h : r.confidence = c
      · -- the skipped head has strictly larger confidence, so it is ≠ c
        have hx : (x.confidence == c) = false := by
          simp only [beq_eq_false_iff_ne, ne_eq]
          intro hxc
          rw [hxc, ← h] at hgt
          exact lt_irrefl _ hgt
        simp [List.filter_cons, hx, ih, h]
      · simp [List.filter_cons, ih, h]

theorem mem_sortByConfidenceDesc {y : AgentRecommendation}
    {l : List AgentRecommendation} :
    y ∈ sortByConfidenceDesc l ↔ y ∈ l := by
  induction l with
  | nil => simp [sortByConfidenceDesc]
  | cons x xs ih =>
    simp only [sortByConfidenceDesc, List.foldr] at *
    rw [mem_insertByConfidence, ih]
    simp

theorem sorted_sortByConfidenceDesc (l : List AgentRecommendation) :
    (sortByConfidenceDesc l).Pairwise (fun a b => b.confidence ≤ a.confidence) := by
  induction l with
  | nil => simp [sortByConfidenceDesc]
  | cons x xs ih =>
    simpa only [sortByConfidenceDesc, List.foldr] using sorted_insertByConfidence ih

theorem filter_sortByConfidenceDesc (l : List AgentRecommendation) (c : Nat) :
    (sortByConfidenceDesc l).filter (fun x => x.confidence == c) =
      l.filter (fun x => x.confidence == c) := by
  induction l with
  | nil => simp [sortByConfidenceDesc]
  | cons x xs ih =>
    simp only [sortByConfidenceDesc, List.foldr] at *
    rw [filter_insertByConfidence]
    by_cases h : x.confidence = c
    · simp [List.filter_cons, h, ih]
    · have hx : (x.confidence == c) = false := by simp [beq_iff_eq, h]
      simp [List.filter_cons, hx, h, ih]

-- ─────────────────────────────────────────────────────────────
-- C3: every returned recommendation has confidence ≥ 40
-- ─────────────────────────────────────────────────────────────

/-- C3: for every snapshot, every AgentRecommendation returned by
recommendAgents has confidence ≥ 40; a template whose shouldRecommend
score is below 40 never appears in the output. -/
theorem recommendAgents_confidence_ge_40 (scan : ScanResult)
    (r : AgentRecommendation) (h : r ∈ recommendAgents scan) :
    40 ≤ r.confidence := by
  have hc : r ∈ candidateRecs scan := by
    rw [recommendAgents] at h
    exact mem_sortByConfidenceDesc.mp h
  rw [candidateRecs] at hc
  rcases List.mem_filterMap.mp hc with ⟨t, _, ht⟩
  by_cases hlt : t.shouldRecommend scan < 40
  · simp [hlt] at ht
  · push_neg at hlt
    simp only [if_neg (not_lt.mpr hlt)] at ht
    cases ht
    exact hlt

theorem recommendAgents_nonempty_on_emptyScan : recommendAgents emptyScan ≠ [] := by
  decide

/-- Witness for C3 at the empty snapshot. -/
theorem recommendAgents_confidence_ge_40_witness :
    40 ≤ ((recommendAgents emptyScan).head recommendAgents_nonempty_on_emptyScan).confidence :=
  recommendAgents_confidence_ge_40 emptyScan _
    (List.head_mem recommendAgents_nonempty_on_emptyScan)

-- ─────────────────────────────────────────────────────────────
-- C8: output sorted by descending confidence, ties in catalog order
-- ─────────────────────────────────────────────────────────────

/-- C8: for every snapshot, recommendAgents returns a list sorted by
descending confidence, and for every confidence value the recommendations
carrying it appear exactly as in the unsorted engine loop output
(candidateRecs), which materializes templates in catalog declaration
order — i.e. the sort is stable with ties broken by declaration order. -/
theorem recommendAgents_sorted_stable (scan : ScanResult) :
    (recommendAgents scan).Pairwise (fun a b => b.confidence ≤ a.confidence) ∧
    ∀ c : Nat, (recommendAgents scan).filter (fun r => r.confidence == c) =
      (candidateRecs scan).filter (fun r => r.confidence == c) := by
  constructor
  · exact sorted_sortByConfidenceDesc (candidateRecs scan)
  · intro c
    exact filter_sortByConfidenceDesc (candidateRecs scan) c

-- ─────────────────────────────────────────────────────────────
-- C1: exception behaviour of the engine loop
-- ─────────────────────────────────────────────────────────────

/-- An agent template whose scoring and materialization functions may
raise, modelled with `Except String`.  A total template is the special
case where both functions always return `Except.ok`. -/
structure AgentTemplateE where
  id : String
  name : String
  category : AgentCategory
  shouldRecommend : ScanResult → Except String Nat
  generate : ScanResult → Except String AgentDetails

/-- The recommendation record pushed by the exception-aware loop. -/
def materializeTemplateE (t : AgentTemplateE) (confidence : Nat)
    (details : AgentDetails) : AgentRecommendation :=
  { id := t.id
    name := t.name
    confidence := confidence
    category := t.category
    estimatedTokens := estimateTokens
      (details.description ++ String.intercalate " " details.capabilities)
    description := details.description
    reason := details.reason
    triggers := details.triggers
    capabilities := details.capabilities
    relevantFiles := details.relevantFiles }

/-- The body of the engine loop of recommendAgents (lines 280-295),
generalized over the catalog, with JavaScript exceptions modelled by
`Except`.  The source contains no try/catch around
`template.shouldRecommend(scan)` or `template.generate(scan)`, so a
raised exception aborts the loop and propagates to the caller. -/
def recLoopE (scan : ScanResult) : List AgentTemplateE →
    Except String (List AgentRecommendation)
  | [] => Except.ok []
  | t :: rest =>
    match t.shouldRecommend scan with
    | Except.error e => Except.error e
    | Except.ok confidence =>
      if confidence < 40 then recLoopE scan rest
      else
        match t.generate scan with
        | Except.error e => Except.error e
        | Except.ok details =>
          match recLoopE scan rest with
          | Except.error e => Except.error e
          | Except.ok recs => Except.ok (materializeTemplateE t confidence details :: recs)

/-- recommendAgents generalized over a catalog of possibly-raising
templates: the loop above followed by the confidence sort. -/
def recommendAgentsE (templates : List AgentTemplateE) (scan : ScanResult) :
    Except String (List AgentRecommendation) :=
  (recLoopE scan templates).map sortByConfidenceDesc

/-- Lifts a total template of the catalog into the exception-aware type. -/
def liftTemplate (t : AgentTemplate) : AgentTemplateE :=
  { id := t.id
    name := t.name
    category := t.category
    shouldRecommend := fun scan => Except.ok (t.shouldRecommend scan)
    generate := fun scan => Except.ok (t.generate scan) }

/-- Coherence of the two embeddings: on a catalog of non-raising
templates the exception-aware loop computes exactly recommendAgents. -/
theorem recommendAgentsE_coherent (scan : ScanResult) :
    recommendAgentsE (AGENT_TEMPLATES.map liftTemplate) scan =
      Except.ok (recommendAgents scan) := by
  have key : ∀ ts : List AgentTemplate,
      recLoopE scan (ts.map liftTemplate) =
        Except.ok (ts.filterMap (fun t =>
          let confidence := t.shouldRecommend scan
          if confidence < 40 then none
          else some (materializeTemplate t confidence scan))) := by
    intro ts
    induction ts with
    | nil => rfl
    | cons t rest ih =>
      simp only [List.map_cons, recLoopE, liftTemplate, List.filterMap_cons, ih]
      by_cases h : t.shouldRecommend scan < 40
      · rw [if_pos h, if_pos h]
      · rw [if_neg h, if_neg h]
        rfl
  rw [recommendAgentsE, key AGENT_TEMPLATES]
  rfl

/-- A template whose scoring function raises. -/
def throwingTemplate : AgentTemplateE :=
  { id := "throwing"
    name := "Throwing"
    category := .general
    shouldRecommend := fun _ => Except.error "template failure"
    generate := fun _ => Except.error "template failure" }

/-- C1 counterexample: with a catalog containing a raising template
followed by the (always recommended, confidence 90) Code Reviewer
template, the engine loop does not return normally: the exception
propagates out, the Code Reviewer template is never surfaced, and no
diagnostic is recorded — refuting the claim that a raising template is
isolated and merely treated as not recommended. -/
theorem recommendAgentsE_counterexample :
    recommendAgentsE [throwingTemplate, liftTemplate codeReviewerTemplate] emptyScan =
      Except.error "template failure" := by
  rfl

/-- A template evaluates cleanly on a snapshot: its scoring function
returns normally, and when the score passes the threshold its
materialization function returns normally too (below the threshold the
loop never calls it). -/
def evaluatesCleanly (t : AgentTemplateE) (scan : ScanResult) : Prop :=
  ∃ c, t.shouldRecommend scan = Except.ok c ∧
    (c < 40 ∨ ∃ d, t.generate scan = Except.ok d)

/-- A template raises the error e on a snapshot: either its scoring
function raises, or its score passes the threshold and its
materialization function raises. -/
def raisesWith (t : AgentTemplateE) (scan : ScanResult) (e : String) : Prop :=
  t.shouldRecommend scan = Except.error e ∨
    ∃ c, t.shouldRecommend scan = Except.ok c ∧ ¬c < 40 ∧
      t.generate scan = Except.error e

theorem recLoopE_error_propagates (scan : ScanResult) (e : String) :
    ∀ (pre : List AgentTemplateE) (t : AgentTemplateE) (rest : List AgentTemplateE),
    (∀ p ∈ pre, evaluatesCleanly p scan) → raisesWith t scan e →
    recLoopE scan (pre ++ t :: rest) = Except.error e := by
  intro pre
  induction pre with
  | nil =>
    intro t rest _ hraise
    rcases hraise with hsc | ⟨c, hok, hge, hgen⟩
    · simp only [List.nil_append, recLoopE, hsc]
    · simp only [List.nil_append, recLoopE, hok]
      rw [if_neg hge, hgen]
  | cons p pre2 ih =>
    intro t rest hpre hraise
    obtain ⟨c, hok, hc⟩ := hpre p (List.mem_cons_self p pre2)
    have hrest : recLoopE scan (pre2 ++ t :: rest) = Except.error e :=
      ih t rest (fun q hq => hpre q (List.mem_cons_of_mem p hq)) hraise
    simp only [List.cons_append, recLoopE, hok, List.append_eq]
    rcases hc with hlt | ⟨d, hd⟩
    · rw [if_pos hlt, hrest]
    · by_cases hlt : c < 40
      · rw [if_pos hlt, hrest]
      · rw [if_neg hlt, hd, hrest]

/-- C1 amended: a template whose scoring or materialization function
raises is not isolated — provided the templates before it in the
catalog evaluate cleanly (otherwise an earlier exception wins), the
exception propagates out of recommendAgents: the run aborts with that
error, no recommendation list is produced, the remaining templates are
not evaluated, and no diagnostic is recorded. -/
theorem recommendAgentsE_error_propagates (pre : List AgentTemplateE)
    (t : AgentTemplateE) (rest : List AgentTemplateE) (scan : ScanResult)
    (e : String) (hpre : ∀ p ∈ pre, evaluatesCleanly p scan)
    (hraise : raisesWith t scan e) :
    recommendAgentsE (pre ++ t :: rest) scan = Except.error e := by
  rw [recommendAgentsE, recLoopE_error_propagates scan e pre t rest hpre hraise]
  rfl

/-- A template whose materialization raises after a passing score. -/
def generateThrowingTemplate : AgentTemplateE :=
  { id := "generate-throwing"
    name := "Generate Throwing"
    category := .general
    shouldRecommend := fun _ => Except.ok 90
    generate := fun _ => Except.error "generate failure" }

/-- Witness for the amended C1 statement: a materialization raise in
the second catalog slot, behind a cleanly evaluating first template,
aborts the whole run. -/
theorem recommendAgentsE_error_propagates_witness :
    recommendAgentsE [liftTemplate codeReviewerTemplate, generateThrowingTemplate]
      emptyScan = Except.error "generate failure" :=
  recommendAgentsE_error_propagates [liftTemplate codeReviewerTemplate]
    generateThrowingTemplate [] emptyScan "generate failure"
    (by
      intro p hp
      rw [List.mem_singleton.mp hp]
      unfold evaluatesCleanly
      exact ⟨90, rfl, Or.inr ⟨_, rfl⟩⟩)
    (by
      unfold raisesWith
      exact Or.inr ⟨90, rfl, by decide, rfl⟩)

-- ─────────────────────────────────────────────────────────────
-- C2: Windsurf size enforcement (WindsurfAdapter.generate, lines 10-35)
-- ─────────────────────────────────────────────────────────────

/-- Windsurf character limit (WINDSURF_CHAR_LIMIT). -/
def WINDSURF_CHAR_LIMIT : Nat := 6000

/-- The fixed truncation marker appended by WindsurfAdapter.generate. -/
def TRUNCATION_MARKER : List Char :=
  "\n\n<!-- Truncated by dotti to fit 6k char limit -->".data

/-- UTF-8 byte length of a character list (Buffer.byteLength(s, "utf-8")). -/
def utf8Length (cs : List Char) : Nat :=
  (cs.map Char.utf8Size).sum

/-- The .windsurfrules artifact: content (as characters) and sizeBytes. -/
structure WindsurfRulesFile where
  content : List Char
  sizeBytes : Nat
deriving DecidableEq

/-- The warning message pushed when the limit is exceeded. -/
def windsurfWarning (n : Nat) : String :=
  "Content is " ++ toString n ++ " chars — exceeds Windsurf's 6000 char limit. " ++
  "Truncating to fit. Consider using fewer rules."

/-- The size-enforcement step of WindsurfAdapter.generate (lines 17-26):
if the assembled content exceeds the 6000-character limit, push one
warning, replace the content by its first 6000 − 50 characters followed
by the truncation marker, and recompute sizeBytes from the new content;
otherwise leave the artifact untouched and emit no warning. -/
def enforceWindsurfLimit (f : WindsurfRulesFile) : WindsurfRulesFile × List String :=
  if WINDSURF_CHAR_LIMIT < f.content.length then
    let truncated := f.content.take (WINDSURF_CHAR_LIMIT - 50) ++ TRUNCATION_MARKER
    ({ content := truncated, sizeBytes := utf8Length truncated },
     [windsurfWarning f.content.length])
  else (f, [])

/-- C2: the Windsurf size-enforcement step is idempotent and
limit-respecting.  Content at or under the 6000-character limit is
returned unchanged with no warning.  Over-limit content is replaced by
its first 6000 − 50 characters plus the 50-character marker — length
exactly 6000 — with sizeBytes recomputed from the new content and
exactly one warning; re-applying the enforcement step to the truncated
artifact changes nothing. -/
theorem enforceWindsurfLimit_spec (f : WindsurfRulesFile) :
    (f.content.length ≤ WINDSURF_CHAR_LIMIT → enforceWindsurfLimit f = (f, [])) ∧
    (WINDSURF_CHAR_LIMIT < f.content.length →
      TRUNCATION_MARKER.length = 50 ∧
      enforceWindsurfLimit f =
        ({ content := f.content.take (WINDSURF_CHAR_LIMIT - 50) ++ TRUNCATION_MARKER,
           sizeBytes := utf8Length
             (f.content.take (WINDSURF_CHAR_LIMIT - 50) ++ TRUNCATION_MARKER) },
         [windsurfWarning f.content.length]) ∧
      (f.content.take (WINDSURF_CHAR_LIMIT - 50) ++ TRUNCATION_MARKER).length =
        WINDSURF_CHAR_LIMIT ∧
      enforceWindsurfLimit
        { content := f.content.take (WINDSURF_CHAR_LIMIT - 50) ++ TRUNCATION_MARKER,
          sizeBytes := utf8Length
            (f.content.take (WINDSURF_CHAR_LIMIT - 50) ++ TRUNCATION_MARKER) } =
        ({ content := f.content.take (WINDSURF_CHAR_LIMIT - 50) ++ TRUNCATION_MARKER,
           sizeBytes := utf8Length
             (f.content.take (WINDSURF_CHAR_LIMIT - 50) ++ TRUNCATION_MARKER) }, [])) := by
  have hmarker : TRUNCATION_MARKER.length = 50 := by decide
  constructor
  · intro hle
    rw [enforceWindsurfLimit, if_neg (not_lt.mpr hle)]
  · intro hgt
    have hlen : (f.content.take (WINDSURF_CHAR_LIMIT - 50) ++ TRUNCATION_MARKER).length =
        WINDSURF_CHAR_LIMIT := by
      rw [List.length_append, List.length_take, hmarker]
      have h1 : WINDSURF_CHAR_LIMIT - 50 ≤ f.content.length := by
        have := le_of_lt hgt
        omega
      rw [min_eq_left h1]
      rw [WINDSURF_CHAR_LIMIT]
    refine ⟨hmarker, ?_, hlen, ?_⟩
    · rw [enforceWindsurfLimit, if_pos hgt]
    · rw [enforceWindsurfLimit]
      rw [if_neg (by rw [hlen]; exact lt_irrefl _)]

/-- A concrete over-limit artifact (6001 identical characters). -/
def oversizedWindsurfFile : WindsurfRulesFile :=
  { content := List.replicate 6001 'a', sizeBytes := 6001 }

/-- Witness for C2 at a concrete over-limit artifact: the enforcement
step yields content of length exactly 6000. -/
theorem enforceWindsurfLimit_spec_witness :
    (enforceWindsurfLimit oversizedWindsurfFile).1.content.length = WINDSURF_CHAR_LIMIT := by
  have hgt : WINDSURF_CHAR_LIMIT < oversizedWindsurfFile.content.length := by
    show 6000 < (List.replicate 6001 'a').length
    rw [List.length_replicate]
    omega
  have h := (enforceWindsurfLimit_spec oversizedWindsurfFile).2 hgt
  rw [h.2.1]
  exact h.2.2.1

-- ─────────────────────────────────────────────────────────────
-- Frontmatter parsing (src/utils/frontmatter.ts, validator/index.ts 23-40)
-- ─────────────────────────────────────────────────────────────

/-- Whitespace class of JavaScript regular expressions (the characters
relevant to this code base; JS additionally treats some exotic Unicode
spaces as whitespace). -/
def isJsWs (c : Char) : Bool :=
  c = ' ' || c = '\t' || c = '\n' || c = '\r' ||
  c = '\x0b' || c = '\x0c' || c = ' ' || c = '﻿'

/-- JavaScript String.prototype.trim. -/
def trimJs (s : String) : String :=
  String.mk (((s.data.dropWhile isJsWs).reverse.dropWhile isJsWs).reverse)

/-- Splits on each LF or CRLF, the behaviour of `split(/\r?\n/)`. -/
def splitLinesAux (cur : List Char) : List Char → List (List Char)
  | [] => [cur.reverse]
  | '\r' :: '\n' :: rest => cur.reverse :: splitLinesAux [] rest
  | '\n' :: rest => cur.reverse :: splitLinesAux [] rest
  | c :: rest => splitLinesAux (c :: cur) rest

/-- Line splitting on `\r?\n`. -/
def splitLines (cs : List Char) : List (List Char) :=
  splitLinesAux [] cs

/-- Result of parseFrontmatter (interface FrontmatterResult); the
JavaScript field object is modelled as an association list in first
assignment order with later assignments overwriting. -/
structure FrontmatterResult where
  found : Bool
  fields : List (String × String)
  body : String
deriving DecidableEq

/-- JavaScript object assignment fields[key] = value: overwrite the
existing entry in place or append a new one. -/
def setField : List (String × String) → String → String → List (String × String)
  | [], k, v => [(k, v)]
  | (k0, v0) :: rest, k, v =>
    if k0 = k then (k0, v) :: rest else (k0, v0) :: setField rest k v

/-- Lookup of a frontmatter field (fields[key], absent = undefined). -/
def fieldsGet (fields : List (String × String)) (k : String) : Option String :=
  (fields.find? (fun p => p.1 = k)).map (·.2)

/-- One loop iteration of the field parser: the first-colon split point,
colon index must be positive, key and value are trimmed. -/
def parseFieldLine (fields : List (String × String)) (line : List Char) :
    List (String × String) :=
  match line.findIdx? (fun c => c = ':') with
  | some idx =>
    if 0 < idx then
      setField fields (trimJs (String.mk (line.take idx)))
        (trimJs (String.mk (line.drop (idx + 1))))
    else fields
  | none => fields

/-- The field-parsing loop over the frontmatter block's lines. -/
def parseFields (fm : List Char) : List (String × String) :=
  (splitLines fm).foldl parseFieldLine []

/-- The opening delimiter of the frontmatter regex, `^---\r?\n`:
succeeds only when the content starts with three hyphens followed by a
line break, returning the remainder. -/
def dropFrontOpen : List Char → Option (List Char)
  | '-' :: '-' :: '-' :: '\n' :: rest => some rest
  | '-' :: '-' :: '-' :: '\r' :: '\n' :: rest => some rest
  | _ => none

/-- Searches for the closing delimiter `\r?\n---` of the lazily matched
group: the first line-feed directly followed by three hyphens.  Returns
the characters before that line feed and the characters after the
hyphens. -/
def splitAtClose : List Char → Option (List Char × List Char)
  | [] => none
  | c :: rest =>
    if c = '\n' ∧ rest.take 3 = ['-', '-', '-'] then some ([], rest.drop 3)
    else (splitAtClose rest).map (fun p => (c :: p.1, p.2))

/-- Drops one trailing carriage return, as consumed by the optional CR
preceding the closing line feed of the regex. -/
def stripTrailingCr (cs : List Char) : List Char :=
  match cs.getLast? with
  | some '\r' => cs.dropLast
  | _ => cs

/-- Consumes the greedy optional `\r?\n?` following the closing
delimiter. -/
def dropCloseNl : List Char → List Char
  | '\r' :: '\n' :: r => r
  | '\n' :: r => r
  | '\r' :: r => r
  | r => r

/-- parseFrontmatter: the anchored regex
`^---\r?\n([\s\S]*?)\r?\n---\r?\n?([\s\S]*)$` applied to the content.
No match (no leading delimiter line or no closing delimiter) returns
found = false with the whole content as body; a match parses the lazily
matched first group as `key: value` lines and returns the rest as body. -/
def parseFrontmatter (content : String) : FrontmatterResult :=
  match dropFrontOpen content.data with
  | none => { found := false, fields := [], body := content }
  | some rest =>
    match splitAtClose rest with
    | none => { found := false, fields := [], body := content }
    | some (pre, after) =>
      { found := true
        fields := parseFields (stripTrailingCr pre)
        body := String.mk (dropCloseNl after) }

/-- The first line of a string: the characters before the first line
feed, without a trailing carriage return. -/
def firstLine (content : String) : String :=
  String.mk (stripTrailingCr (content.data.takeWhile (fun c => c != '\n')))

theorem dropFrontOpen_firstLine {content : String} {rest : List Char}
    (h : dropFrontOpen content.data = some rest) : firstLine content = "---" := by
  revert h
  unfold dropFrontOpen
  split
  · rename_i heq
    intro _
    rw [firstLine, heq]
    rfl
  · rename_i heq
    intro _
    rw [firstLine, heq]
    rfl
  · intro h
    exact absurd h (by simp)

/-- C9: frontmatter is recognized only at the very start of the content —
whenever the first line of the content is not exactly the three-hyphen
delimiter, parseFrontmatter reports found = false with the entire content
as the body. -/
theorem parseFrontmatter_requires_leading_delimiter (content : String)
    (h : firstLine content ≠ "---") :
    parseFrontmatter content = { found := false, fields := [], body := content } := by
  unfold parseFrontmatter
  cases hopen : dropFrontOpen content.data with
  | none => rfl
  | some rest => exact absurd (dropFrontOpen_firstLine hopen) h

/-- Witness for C9: content with a leading blank line before the
delimiter is treated as having no frontmatter at all. -/
theorem parseFrontmatter_requires_leading_delimiter_witness :
    parseFrontmatter "\n---\nname: x\n---\nbody" =
      { found := false, fields := [], body := "\n---\nname: x\n---\nbody" } :=
  parseFrontmatter_requires_leading_delimiter "\n---\nname: x\n---\nbody" (by decide)

-- ─────────────────────────────────────────────────────────────
-- Conflict analyzer data model (src/fixer/index.ts)
-- ─────────────────────────────────────────────────────────────

/-- A pre-existing artifact handed to the analyzers
(interface ExistingConfig; the analyzer-relevant fields). -/
structure ExistingConfig where
  tool : ToolTarget
  filePath : String
  sizeBytes : Nat
  content : Option String
deriving DecidableEq, Inhabited

/-- An agent record recovered from artifact text (interface ParsedAgent). -/
structure ParsedAgent where
  tool : ToolTarget
  file : String
  name : String
  description : String
  triggers : List String
deriving DecidableEq, Inhabited

/-- Issue type of the conflict analyzer, "overlap" | "vague" | "duplicate". -/
inductive FixIssueType where
  | overlap | vague | duplicate
deriving DecidableEq, Inhabited

/-- A conflict issue (interface FixIssue). -/
structure FixIssue where
  type : FixIssueType
  severity : Severity
  agents : List String
  message : String
  suggestion : Option String
deriving DecidableEq, Inhabited

-- ─────────────────────────────────────────────────────────────
-- Text extraction helpers of the conflict analyzer
-- ─────────────────────────────────────────────────────────────

/-- Splits on each line feed, the behaviour of `split("\n")` and of
scanning a multiline-anchored regex line by line. -/
def splitOnLfAux (cur : List Char) : List Char → List (List Char)
  | [] => [cur.reverse]
  | '\n' :: rest => cur.reverse :: splitOnLfAux [] rest
  | c :: rest => splitOnLfAux (c :: cur) rest

/-- Line splitting on a bare line feed. -/
def splitOnLf (cs : List Char) : List (List Char) :=
  splitOnLfAux [] cs

/-- The per-line match of `/^#\s+(.+)$/m`: a hash, at least one
whitespace character, then at least one further character; the greedy
whitespace run backtracks by one step when it would leave the capture
empty. -/
def headingCapture : List Char → Option (List Char)
  | '#' :: w :: r2 =>
    if isJsWs w ∧ r2 ≠ [] then
      let stripped := (w :: r2).dropWhile isJsWs
      some (if stripped.isEmpty then ((w :: r2).getLast?).elim [] (fun c => [c]) else stripped)
    else none
  | _ => none

/-- extractNameFromHeading (fixer/index.ts 100-103): the trimmed capture
of the first line matching the level-1 heading pattern, or the empty
string. -/
def extractNameFromHeading (content : String) : String :=
  match (splitOnLf content.data).findSome? headingCapture with
  | some cap => trimJs (String.mk cap)
  | none => ""

/-- extractFirstParagraph (fixer/index.ts 106-115): the first trimmed
line that is non-empty and starts with none of `#`, `-`, `*`. -/
def extractFirstParagraph (body : String) : String :=
  ((splitLines body.data).findSome? (fun line =>
    let trimmed := trimJs (String.mk line)
    if trimmed ≠ "" ∧ ¬trimmed.startsWith "#" ∧ ¬trimmed.startsWith "-" ∧
        ¬trimmed.startsWith "*"
    then some trimmed else none)).getD ""

/-- The character class `[:\s]` of the triggers regex. -/
def isSepClass (c : Char) : Bool :=
  c = ':' || isJsWs c

/-- The `[:\s]*(.+)` tail of the triggers regex, from a given suffix of
the content: greedily consume separator characters, then capture at
least one non-line-feed character, backtracking into the separator run
when the capture would otherwise be empty. -/
def captureFrom (cs : List Char) : Option (List Char) :=
  let run := cs.takeWhile isSepClass
  match cs.drop run.length with
  | c :: rest => some ((c :: rest).takeWhile (fun ch => ch != '\n'))
  | [] =>
    match run.reverse.dropWhile (fun ch => ch = '\n') with
    | [] => none
    | c :: _ => some [c]

/-- Case-insensitive prefix test against an already lower-case pattern
(JS toLowerCase restricted to the ASCII range relevant here). -/
def lcPrefixAt : List Char → List Char → Bool
  | [], _ => true
  | _ :: _, [] => false
  | p :: ps, c :: rest => p = c.toLower && lcPrefixAt ps rest

/-- The leftmost match of `/(?:triggers?|when to activate)[:\s]*(.+)/i`:
at each position try the keyword `trigger` with greedy optional `s`
(falling back to the shorter keyword when the longer fails), or the
keyword `when to activate`; on a keyword match attempt the capture; on
failure resume scanning at the next position. -/
def triggersSearch : List Char → Option (List Char)
  | [] => none
  | c :: rest =>
    if lcPrefixAt "trigger".data (c :: rest) then
      let after7 := (c :: rest).drop 7
      let attempt :=
        match after7 with
        | s :: r2 =>
          if s.toLower = 's' then
            match captureFrom r2 with
            | some cap => some cap
            | none => captureFrom after7
          else captureFrom after7
        | [] => captureFrom after7
      match attempt with
      | some cap => some cap
      | none => triggersSearch rest
    else if lcPrefixAt "when to activate".data (c :: rest) then
      match captureFrom ((c :: rest).drop 16) with
      | some cap => some cap
      | none => triggersSearch rest
    else triggersSearch rest

/-- Splits on each comma or semicolon, the behaviour of
`split(/[,;]/)`. -/
def splitSepAux (cur : List Char) : List Char → List (List Char)
  | [] => [cur.reverse]
  | ',' :: rest => cur.reverse :: splitSepAux [] rest
  | ';' :: rest => cur.reverse :: splitSepAux [] rest
  | c :: rest => splitSepAux (c :: cur) rest

/-- Splitting on `[,;]`. -/
def splitSep (cs : List Char) : List (List Char) :=
  splitSepAux [] cs

/-- All matches of the global regex `/\*\*([^*]+)\*\*/g`: bold spans.
After a failed opening at some position the scan resumes one character
further; after a successful match it resumes past the closing stars. -/
def boldSpans : List Char → List (List Char)
  | [] => []
  | '*' :: '*' :: rest2 =>
    let run := rest2.takeWhile (fun ch => ch != '*')
    let after := rest2.drop run.length
    if 0 < run.length ∧ after.take 2 = ['*', '*'] then
      run :: boldSpans (after.drop 2)
    else boldSpans ('*' :: rest2)
  | _ :: rest => boldSpans rest
termination_by cs => cs.length
decreasing_by
  all_goals simp only [List.length_drop, List.length_cons]
  all_goals omega

/-- extractTriggersFromBody (fixer/index.ts 131-135): bold spans,
lower-cased and trimmed, kept when longer than 2 and shorter than 30
characters. -/
def extractTriggersFromBody (body : String) : List String :=
  ((boldSpans body.data).map (fun m => trimJs (String.mk (m.map Char.toLower)))).filter
    (fun w => decide (2 < w.length) && decide (w.length < 30))

/-- extractTriggers (fixer/index.ts 118-128): an explicit triggers line
split on commas/semicolons, trimmed and lower-cased, empty pieces
dropped; otherwise inferred from bold spans of the body. -/
def extractTriggers (content : String) : List String :=
  match triggersSearch content.data with
  | some cap =>
    (((splitSep cap).map (fun t => (trimJs (String.mk t)).toLower)).filter (fun t => t ≠ ""))
  | none => extractTriggersFromBody content

-- ─────────────────────────────────────────────────────────────
-- C10: parseAgentFromFile (fixer/index.ts 45-62)
-- ─────────────────────────────────────────────────────────────

/-- parseAgentFromFile: the name falls back from the frontmatter `name`
field to the first level-1 heading and finally to the file path; the
description falls back from the frontmatter `description` field to the
first paragraph of the body; a record is produced unless both name and
description are empty. -/
def parseAgentFromFile (config : ExistingConfig) : Option ParsedAgent :=
  let content := config.content.getD ""
  let fm := parseFrontmatter content
  let name := jsOr (jsOr ((fieldsGet fm.fields "name").getD "")
    (extractNameFromHeading content)) config.filePath
  let description := jsOr ((fieldsGet fm.fields "description").getD "")
    (extractFirstParagraph fm.body)
  let triggers := extractTriggers content
  if name = "" ∧ description = "" then none
  else some { tool := config.tool, file := config.filePath, name := name,
              description := description, triggers := triggers }

theorem jsOr_ne_empty {a b : String} (hb : b ≠ "") : jsOr a b ≠ "" := by
  unfold jsOr
  split
  · exact hb
  · assumption

/-- C10: parseAgentFromFile is total over agent-bearing files with a
non-empty path — the name falls back to the file path so the
null-returning guard is unreachable, and the record it returns has a
non-empty name (a missing description merely yields the empty string). -/
theorem parseAgentFromFile_total (config : ExistingConfig)
    (h : config.filePath ≠ "") :
    ∃ a : ParsedAgent, parseAgentFromFile config = some a ∧ a.name ≠ "" := by
  have hn : jsOr (jsOr ((fieldsGet (parseFrontmatter (config.content.getD "")).fields
      "name").getD "") (extractNameFromHeading (config.content.getD "")))
      config.filePath ≠ "" := jsOr_ne_empty h
  refine ⟨{ tool := config.tool
            file := config.filePath
            name := jsOr (jsOr ((fieldsGet (parseFrontmatter
              (config.content.getD "")).fields "name").getD "")
              (extractNameFromHeading (config.content.getD ""))) config.filePath
            description := jsOr ((fieldsGet (parseFrontmatter
              (config.content.getD "")).fields "description").getD "")
              (extractFirstParagraph (parseFrontmatter (config.content.getD "")).body)
            triggers := extractTriggers (config.content.getD "") }, ?_, hn⟩
  simp only [parseAgentFromFile]
  rw [if_neg (fun hc => hn hc.1)]

/-- A concrete agent file (frontmatter with a name, no description). -/
def sampleAgentConfig : ExistingConfig :=
  { tool := .claude
    filePath := ".claude/agents/reviewer.md"
    sizeBytes := 42
    content := some "---\nname: Reviewer\n---\nReviews code." }

/-- Witness for C10 at a concrete agent file. -/
theorem parseAgentFromFile_total_witness :
    (parseAgentFromFile sampleAgentConfig).isSome = true := by
  obtain ⟨a, ha, _⟩ := parseAgentFromFile_total sampleAgentConfig (by decide)
  rw [ha]
  rfl

-- ─────────────────────────────────────────────────────────────
-- C4: detectOverlaps (fixer/index.ts 142-170)
-- ─────────────────────────────────────────────────────────────

/-- The issue pushed for an overlapping pair: warning severity, both
file paths, and the shared terms in the message. -/
def overlapIssue (a b : ParsedAgent) : FixIssue :=
  let setB := b.triggers.dedup
  let shared := a.triggers.filter (fun t => setB.contains t)
  { type := .overlap
    severity := .warning
    agents := [a.file, b.file]
    message := "\"" ++ a.name ++ "\" and \"" ++ b.name ++ "\" share " ++
      toString shared.length ++ " trigger words: " ++ String.intercalate ", " shared
    suggestion := some "Differentiate triggers so each agent has a unique activation pattern" }

/-- The inner-loop body of detectOverlaps for one ordered pair: skip
when either trigger list is empty; otherwise the sets are the
deduplicated trigger lists, `shared` counts occurrences of the first
record's triggers that lie in the second set, and the pair is flagged
when `minSize > 0 && shared.length / minSize > 0.5`.  The JavaScript
division is floating point; on these integer magnitudes the comparison
with 0.5 is exact and equivalent to `minSize < 2 * shared.length`. -/
def overlapPairIssues (a b : ParsedAgent) : List FixIssue :=
  if a.triggers.length = 0 ∨ b.triggers.length = 0 then []
  else
    let setA := a.triggers.dedup
    let setB := b.triggers.dedup
    let shared := a.triggers.filter (fun t => setB.contains t)
    let minSize := min setA.length setB.length
    if 0 < minSize ∧ minSize < 2 * shared.length then [overlapIssue a b] else []

/-- The inner `j` loop of detectOverlaps. -/
def overlapInner (a : ParsedAgent) : List ParsedAgent → List FixIssue
  | [] => []
  | b :: rest => overlapPairIssues a b ++ overlapInner a rest

/-- detectOverlaps: the `i < j` double loop over the records. -/
def detectOverlaps : List ParsedAgent → List FixIssue
  | [] => []
  | a :: rest => overlapInner a rest ++ detectOverlaps rest

/-- Every unordered pair of records, enumerated once, in loop order. -/
def agentPairs : List ParsedAgent → List (ParsedAgent × ParsedAgent)
  | [] => []
  | a :: rest => rest.map (fun b => (a, b)) ++ agentPairs rest

/-- The shared-trigger count of a pair, as the source computes it. -/
def sharedCount (a b : ParsedAgent) : Nat :=
  (a.triggers.filter (fun t => b.triggers.dedup.contains t)).length

/-- The size of the smaller of the two trigger sets. -/
def minSetSize (a b : ParsedAgent) : Nat :=
  min a.triggers.dedup.length b.triggers.dedup.length

/-- The flagging criterion in the words of the claim: both trigger sets
non-empty and the shared-trigger count divided by the smaller set's
size strictly greater than one half. -/
def overlapFlagged (a b : ParsedAgent) : Prop :=
  a.triggers ≠ [] ∧ b.triggers ≠ [] ∧
    (1 : ℚ) / 2 < (sharedCount a b : ℚ) / (minSetSize a b : ℚ)

instance (a b : ParsedAgent) : Decidable (overlapFlagged a b) := by
  unfold overlapFlagged
  infer_instance

theorem half_lt_div_iff {s m : Nat} (hm : 0 < m) :
    (1 : ℚ) / 2 < (s : ℚ) / (m : ℚ) ↔ m < 2 * s := by
  rw [div_lt_div_iff₀ (by norm_num) (by exact_mod_cast hm)]
  constructor
  · intro h
    have hq : (m : ℚ) < 2 * s := by linarith
    exact_mod_cast hq
  · intro h
    have hq : (m : ℚ) < 2 * s := by exact_mod_cast h
    linarith

theorem overlapPairIssues_eq (a b : ParsedAgent) :
    overlapPairIssues a b = if overlapFlagged a b then [overlapIssue a b] else [] := by
  unfold overlapPairIssues
  by_cases hempty : a.triggers.length = 0 ∨ b.triggers.length = 0
  · rw [if_pos hempty, if_neg]
    intro hf
    rcases hempty with h | h
    · exact hf.1 (List.length_eq_zero.mp h)
    · exact hf.2.1 (List.length_eq_zero.mp h)
  · rw [if_neg hempty]
    push_neg at hempty
    have ha : a.triggers ≠ [] := fun hh => hempty.1 (by rw [hh]; rfl)
    have hb : b.triggers ≠ [] := fun hh => hempty.2 (by rw [hh]; rfl)
    have hm : 0 < min a.triggers.dedup.length b.triggers.dedup.length := by
      rw [lt_min_iff]
      constructor
      · exact List.length_pos.mpr (fun hh => ha ((List.dedup_eq_nil _).mp hh))
      · exact List.length_pos.mpr (fun hh => hb ((List.dedup_eq_nil _).mp hh))
    by_cases hcond : min a.triggers.dedup.length b.triggers.dedup.length <
        2 * (a.triggers.filter (fun t => b.triggers.dedup.contains t)).length
    · rw [if_pos ⟨hm, hcond⟩, if_pos]
      exact ⟨ha, hb, (half_lt_div_iff hm).mpr hcond⟩
    · rw [if_neg (fun hc => hcond hc.2), if_neg]
      intro hf
      exact hcond ((half_lt_div_iff hm).mp hf.2.2)

theorem overlapInner_eq (a : ParsedAgent) (rest : List ParsedAgent) :
    overlapInner a rest =
      ((rest.map (fun b => (a, b))).filter
        (fun p => decide (overlapFlagged p.1 p.2))).map
        (fun p => overlapIssue p.1 p.2) := by
  induction rest with
  | nil => rfl
  | cons b rest2 ih =>
    simp only [overlapInner, List.map_cons, List.filter_cons, ih, overlapPairIssues_eq]
    by_cases hf : overlapFlagged a b
    · simp [hf]
    · simp [hf]

/-- C4: detectOverlaps flags exactly one issue per unordered pair of
records — the issues are precisely the image, over the once-enumerated
pairs in loop order, of those pairs whose trigger lists are both
non-empty and whose shared-trigger count divided by the smaller
deduplicated set's size exceeds one half. -/
theorem detectOverlaps_characterization (agents : List ParsedAgent) :
    detectOverlaps agents =
      ((agentPairs agents).filter (fun p => decide (overlapFlagged p.1 p.2))).map
        (fun p => overlapIssue p.1 p.2) := by
  induction agents with
  | nil => rfl
  | cons a rest ih =>
    simp only [detectOverlaps, agentPairs, List.filter_append, List.map_append, ih,
      overlapInner_eq]

-- ─────────────────────────────────────────────────────────────
-- C7: detectDuplicates (fixer/index.ts 212-243)
-- ─────────────────────────────────────────────────────────────

/-- JavaScript Map grouping step (byName.set of lines 217-220): append
the record to its key's existing group in place, or append a new entry
at the end — Map iteration order is key insertion order. -/
def addToGroup : List (String × List ParsedAgent) → String → ParsedAgent →
    List (String × List ParsedAgent)
  | [], key, a => [(key, [a])]
  | (k, g) :: rest, key, a =>
    if k = key then (k, g ++ [a]) :: rest else (k, g) :: addToGroup rest key a

/-- The byName map of detectDuplicates: records grouped by lower-cased
name in first-occurrence key order. -/
def byNameGroups (agents : List ParsedAgent) : List (String × List ParsedAgent) :=
  agents.foldl (fun m a => addToGroup m (a.name.toLower) a) []

/-- The issue pushed for a duplicate-identity group. -/
def duplicateIssue (group : List ParsedAgent) : FixIssue :=
  { type := .duplicate
    severity := .warning
    agents := group.map (·.file)
    message := "Agent \"" ++ group.headI.name ++ "\" exists in " ++
      toString ((group.map (·.tool)).dedup).length ++ " tools with different descriptions"
    suggestion := some "Align descriptions across tools for consistent routing, or rename to differentiate" }

/-- The per-group body of the detectDuplicates loop (lines 223-240):
skip singleton groups, skip groups within a single tool, flag groups
with more than one distinct description. -/
def duplicateEntryIssues (group : List ParsedAgent) : List FixIssue :=
  if group.length ≤ 1 then []
  else if ((group.map (·.tool)).dedup).length ≤ 1 then []
  else if 1 < ((group.map (·.description)).dedup).length then [duplicateIssue group]
  else []

/-- detectDuplicates: group by case-insensitive name, then run the
per-group body over the groups in insertion order. -/
def detectDuplicates (agents : List ParsedAgent) : List FixIssue :=
  (byNameGroups agents).flatMap (fun e => duplicateEntryIssues e.2)

/-- The lower-cased names in order of first occurrence — the key order
of the byName map. -/
def keysInOrder (agents : List ParsedAgent) : List String :=
  agents.foldl (fun ks a => if a.name.toLower ∈ ks then ks else ks ++ [a.name.toLower]) []

theorem mem_keysInOrder_foldl (agents : List ParsedAgent) (acc : List String)
    (key : String) :
    (key ∈ agents.foldl
        (fun ks a => if a.name.toLower ∈ ks then ks else ks ++ [a.name.toLower]) acc) ↔
      key ∈ acc ∨ ∃ a ∈ agents, a.name.toLower = key := by
  induction agents generalizing acc with
  | nil => simp
  | cons a rest ih =>
    simp only [List.foldl_cons]
    rw [ih]
    by_cases h : a.name.toLower ∈ acc
    · rw [if_pos h]
      constructor
      · intro hh
        rcases hh with hh | hh
        · exact Or.inl hh
        · exact Or.inr (by
            rcases hh with ⟨x, hx, hxe⟩
            exact ⟨x, List.mem_cons_of_mem a hx, hxe⟩)
      · intro hh
        rcases hh with hh | ⟨x, hx, hxe⟩
        · exact Or.inl hh
        · rcases List.mem_cons.mp hx with rfl | hx2
          · exact Or.inl (hxe ▸ h)
          · exact Or.inr ⟨x, hx2, hxe⟩
    · rw [if_neg h]
      constructor
      · intro hh
        rcases hh with hh | hh
        · rcases List.mem_append.mp hh with hh2 | hh2
          · exact Or.inl hh2
          · refine Or.inr ⟨a, List.mem_cons_self a rest, ?_⟩
            have := List.mem_singleton.mp hh2
            exact this.symm
        · rcases hh with ⟨x, hx, hxe⟩
          exact Or.inr ⟨x, List.mem_cons_of_mem a hx, hxe⟩
      · intro hh
        rcases hh with hh | ⟨x, hx, hxe⟩
        · exact Or.inl (List.mem_append.mpr (Or.inl hh))
        · rcases List.mem_cons.mp hx with rfl | hx2
          · exact Or.inl (List.mem_append.mpr (Or.inr (by simp [hxe])))
          · exact Or.inr ⟨x, hx2, hxe⟩

theorem mem_keysInOrder {agents : List ParsedAgent} {key : String} :
    key ∈ keysInOrder agents ↔ ∃ a ∈ agents, a.name.toLower = key := by
  rw [keysInOrder, mem_keysInOrder_foldl]
  simp

theorem keysInOrder_complete {agents : List ParsedAgent} {key : String}
    (h : key ∉ keysInOrder agents) :
    agents.filter (fun a => a.name.toLower == key) = [] := by
  rw [List.filter_eq_nil_iff]
  intro a ha hak
  exact h (mem_keysInOrder.mpr ⟨a, ha, by simpa using hak⟩)

theorem keysInOrder_nodup (agents : List ParsedAgent) : (keysInOrder agents).Nodup := by
  have key : ∀ (l : List ParsedAgent) (acc : List String), acc.Nodup →
      (l.foldl (fun ks a => if a.name.toLower ∈ ks then ks else ks ++ [a.name.toLower])
        acc).Nodup := by
    intro l
    induction l with
    | nil => intro acc h; exact h
    | cons a rest ih =>
      intro acc h
      simp only [List.foldl_cons]
      by_cases hmem : a.name.toLower ∈ acc
      · rw [if_pos hmem]; exact ih acc h
      · rw [if_neg hmem]
        refine ih _ (List.nodup_append.mpr ⟨h, List.nodup_singleton _, ?_⟩)
        intro x hx hx2
        rw [List.mem_singleton.mp hx2] at hx
        exact hmem hx
  exact key agents [] List.nodup_nil

theorem addToGroup_mem {ks : List String} (f : String → List ParsedAgent)
    (key : String) (a : ParsedAgent) (hnd : ks.Nodup) (hmem : key ∈ ks) :
    addToGroup (ks.map (fun k => (k, f k))) key a =
      ks.map (fun k => (k, if k = key then f k ++ [a] else f k)) := by
  induction ks with
  | nil => cases hmem
  | cons k0 rest ih =>
    rcases List.pairwise_cons.mp hnd with ⟨hk0, hrest⟩
    simp only [List.map_cons, addToGroup]
    by_cases hk : k0 = key
    · rw [if_pos hk, if_pos hk]
      have : rest.map (fun k => (k, if k = key then f k ++ [a] else f k)) =
          rest.map (fun k => (k, f k)) := by
        apply List.map_congr_left
        intro x hx
        rw [if_neg]
        intro hxk
        exact (hk0 x hx) (hk.trans hxk.symm)
      rw [this]
    · rw [if_neg hk, if_neg hk]
      rcases List.mem_cons.mp hmem with rfl | hmem2
      · exact absurd rfl hk
      · rw [ih hrest hmem2]

theorem addToGroup_notmem {ks : List String} (f : String → List ParsedAgent)
    (key : String) (a : ParsedAgent) (hmem : key ∉ ks) :
    addToGroup (ks.map (fun k => (k, f k))) key a =
      ks.map (fun k => (k, f k)) ++ [(key, [a])] := by
  induction ks with
  | nil => rfl
  | cons k0 rest ih =>
    simp only [List.map_cons, addToGroup]
    rw [if_neg (fun h : k0 = key =>
      hmem (by rw [← h]; exact List.mem_cons_self k0 rest))]
    rw [ih (fun h => hmem (List.mem_cons_of_mem k0 h))]
    rfl

theorem byNameGroups_eq (agents : List ParsedAgent) :
    byNameGroups agents =
      (keysInOrder agents).map
        (fun k => (k, agents.filter (fun a => a.name.toLower == k))) := by
  induction agents using List.reverseRecOn with
  | nil => rfl
  | append_singleton xs a ih =>
    have hfold : byNameGroups (xs ++ [a]) =
        addToGroup (byNameGroups xs) (a.name.toLower) a := by
      simp [byNameGroups]
    have hkeys : keysInOrder (xs ++ [a]) =
        if a.name.toLower ∈ keysInOrder xs then keysInOrder xs
        else keysInOrder xs ++ [a.name.toLower] := by
      simp [keysInOrder]
    rw [hfold, ih, hkeys]
    by_cases hmem : a.name.toLower ∈ keysInOrder xs
    · rw [if_pos hmem]
      rw [addToGroup_mem _ _ _ (keysInOrder_nodup xs) hmem]
      apply List.map_congr_left
      intro k hk
      simp only [List.filter_append, Prod.mk.injEq, true_and]
      by_cases hke : k = a.name.toLower
      · rw [if_pos hke]
        have : List.filter (fun x => x.name.toLower == k) [a] = [a] := by
          simp [List.filter, hke]
        rw [this]
      · rw [if_neg hke]
        have hbeq : (a.name.toLower == k) = false := by
          simp only [beq_eq_false_iff_ne, ne_eq]
          intro hh
          exact hke hh.symm
        have : List.filter (fun x => x.name.toLower == k) [a] = [] := by
          simp [List.filter, hbeq]
        rw [this, List.append_nil]
    · rw [if_neg hmem]
      rw [addToGroup_notmem _ _ _ hmem]
      rw [List.map_append]
      congr 1
      · apply List.map_congr_left
        intro k hk
        simp only [List.filter_append, Prod.mk.injEq, true_and]
        have hbeq : (a.name.toLower == k) = false := by
          simp only [beq_eq_false_iff_ne, ne_eq]
          intro hh
          apply hmem
          rw [hh]
          exact hk
        have : List.filter (fun x => x.name.toLower == k) [a] = [] := by
          simp [List.filter, hbeq]
        rw [this, List.append_nil]
      · simp only [List.map_cons, List.map_nil, Prod.mk.injEq, true_and]
        rw [List.filter_append, keysInOrder_complete hmem]
        simp [List.filter]

theorem duplicateEntryIssues_eq (group : List ParsedAgent) :
    duplicateEntryIssues group =
      if 1 < ((group.map (·.tool)).dedup).length ∧
          1 < ((group.map (·.description)).dedup).length
      then [duplicateIssue group] else [] := by
  unfold duplicateEntryIssues
  by_cases h1 : group.length ≤ 1
  · rw [if_pos h1, if_neg]
    intro hc
    have hle : ((group.map (·.tool)).dedup).length ≤ group.length := by
      calc ((group.map (·.tool)).dedup).length
          ≤ (group.map (·.tool)).length := (List.dedup_sublist _).length_le
        _ = group.length := List.length_map _ _
    omega
  · rw [if_neg h1]
    by_cases h2 : ((group.map (·.tool)).dedup).length ≤ 1
    · rw [if_pos h2, if_neg]
      intro hc
      omega
    · rw [if_neg h2]
      by_cases h3 : 1 < ((group.map (·.description)).dedup).length
      · rw [if_pos h3, if_pos ⟨by omega, h3⟩]
      · rw [if_neg h3, if_neg]
        intro hc
        exact h3 hc.2

theorem flatMap_if_singleton {α β : Type _} (l : List α) (p : α → Prop)
    [DecidablePred p] (g : α → β) :
    (l.flatMap (fun x => if p x then [g x] else [])) =
      l.filterMap (fun x => if p x then some (g x) else none) := by
  induction l with
  | nil => rfl
  | cons x xs ih =>
    by_cases h : p x
    · simp [h, ih]
    · simp [h, ih]

/-- C7: duplicate-identity detection flags, among the groups of records
sharing a lower-cased name (in first-occurrence order), exactly those
groups spanning more than one destination tool and containing more than
one distinct description text — same-name records within a single tool,
and same-name records across tools with identical descriptions, are
never flagged. -/
theorem detectDuplicates_characterization (agents : List ParsedAgent) :
    detectDuplicates agents =
      (keysInOrder agents).filterMap (fun key =>
        let group := agents.filter (fun a => a.name.toLower == key)
        if 1 < ((group.map (·.tool)).dedup).length ∧
            1 < ((group.map (·.description)).dedup).length
        then some (duplicateIssue group) else none) := by
  rw [detectDuplicates, byNameGroups_eq]
  have hmap : ∀ (ks : List String) (f : String → List ParsedAgent),
      (ks.map (fun k => (k, f k))).flatMap (fun e => duplicateEntryIssues e.2) =
        ks.flatMap (fun k => duplicateEntryIssues (f k)) := by
    intro ks f
    induction ks with
    | nil => rfl
    | cons k rest ih => simp [ih]
  rw [hmap]
  have hbody : ∀ ks : List String,
      ks.flatMap (fun k =>
        duplicateEntryIssues (agents.filter (fun a => a.name.toLower == k))) =
      ks.flatMap (fun k =>
        if 1 < (((agents.filter (fun a => a.name.toLower == k)).map (·.tool)).dedup).length ∧
            1 < (((agents.filter (fun a => a.name.toLower == k)).map
              (·.description)).dedup).length
        then [duplicateIssue (agents.filter (fun a => a.name.toLower == k))] else []) := by
    intro ks
    induction ks with
    | nil => rfl
    | cons k rest ih =>
      simp only [List.flatMap_cons, ih, duplicateEntryIssues_eq]
  rw [hbody]
  exact flatMap_if_singleton _ _ _

-- ─────────────────────────────────────────────────────────────
-- C6: glob pattern validation (validator/index.ts 334-402)
-- ─────────────────────────────────────────────────────────────

/-- A validation issue (interface ValidationIssue). -/
structure ValidationIssue where
  tool : ToolTarget
  file : String
  severity : Severity
  message : String
  fix : Option String
deriving DecidableEq, Inhabited

/-- The replace of `/^"(.*)"$/` with the inner group: strips one pair of
surrounding double quotes (the dot does not cross a line feed, and the
pattern needs at least the two quote characters). -/
def stripOuterQuotes (s : String) : String :=
  match s.data with
  | [] => s
  | c :: rest =>
    if c = '"' ∧ rest ≠ [] ∧ rest.getLast? = some '"' ∧ '\n' ∉ c :: rest then
      String.mk rest.dropLast
    else s

/-- Splits on each comma, the behaviour of `split(",")`. -/
def splitCommaAux (cur : List Char) : List Char → List (List Char)
  | [] => [cur.reverse]
  | ',' :: rest => cur.reverse :: splitCommaAux [] rest
  | c :: rest => splitCommaAux (c :: cur) rest

/-- `split(",")` on a string. -/
def splitComma (s : String) : List String :=
  (splitCommaAux [] s.data).map String.mk

/-- extractGlobPatterns (validator/index.ts 334-353, identical in the
pruner): the comma-split trimmed values of the `globs` field and of the
quote-stripped `applyTo` field, empty entries dropped; a missing or
empty field contributes nothing (JavaScript truthiness). -/
def extractGlobPatterns (config : ExistingConfig) : List String :=
  let content := config.content.getD ""
  let fm := parseFrontmatter content
  if fm.found = false then []
  else
    let globsPart := match fieldsGet fm.fields "globs" with
      | some gv => if gv = "" then [] else (splitComma gv).map (fun x => trimJs x)
      | none => []
    let applyPart := match fieldsGet fm.fields "applyTo" with
      | some av =>
        if av = "" then []
        else (splitComma (stripOuterQuotes av)).map (fun x => trimJs x)
      | none => []
    (globsPart ++ applyPart).filter (fun p => p ≠ "")

/-- Whether the pattern list contains the two-character sequence `..`
(String.prototype.includes). -/
def containsSub (pat : List Char) : List Char → Bool
  | [] => pat.isEmpty
  | c :: rest => pat.isPrefixOf (c :: rest) || containsSub pat rest

/-- `pattern.includes("..")`. -/
def containsDotDot (p : String) : Bool :=
  containsSub "..".data p.data

/-- POSIX `path.isAbsolute`: the path starts with a slash. -/
def isAbsolutePath (p : String) : Bool :=
  match p.data with
  | '/' :: _ => true
  | _ => false

/-- POSIX `path.join(projectRoot, pattern)` (no backslashes occur after
the replace, and the resolver receiving the joined string is abstract). -/
def joinPath (root p : String) : String :=
  root ++ "/" ++ p

/-- The error-severity issue for a traversal/absolute pattern. -/
def traversalIssue (config : ExistingConfig) (pattern : String) : ValidationIssue :=
  { tool := config.tool
    file := config.filePath
    severity := .error
    message := "Glob pattern \"" ++ pattern ++ "\" contains path traversal or absolute path"
    fix := some "Use relative patterns within the project (e.g., src/**/*.ts)" }

/-- The warning-severity issue for a pattern matching zero files. -/
def deadPatternIssue (config : ExistingConfig) (pattern : String) : ValidationIssue :=
  { tool := config.tool
    file := config.filePath
    severity := .warning
    message := "Glob pattern \"" ++ pattern ++ "\" matches 0 files in the project"
    fix := some "Update the pattern to match actual project files, or remove if no longer needed" }

/-- The warning-severity issue for a glob resolution failure. -/
def invalidGlobIssue (config : ExistingConfig) (pattern : String) : ValidationIssue :=
  { tool := config.tool
    file := config.filePath
    severity := .warning
    message := "Invalid glob pattern: \"" ++ pattern ++ "\""
    fix := some "Fix the glob syntax" }

/-- The issues one pattern contributes: universal patterns are skipped,
traversal/absolute patterns are rejected without being resolved, the
rest are resolved — zero matches warns, a resolver exception warns. -/
def globPatternIssues (g : String → Except Unit (List String)) (projectRoot : String)
    (config : ExistingConfig) (pattern : String) : List ValidationIssue :=
  if pattern = "**/*" ∨ pattern = "**" then []
  else if containsDotDot pattern || isAbsolutePath pattern then
    [traversalIssue config pattern]
  else
    match g (joinPath projectRoot pattern) with
    | Except.ok ms => if ms.length = 0 then [deadPatternIssue config pattern] else []
    | Except.error _ => [invalidGlobIssue config pattern]

/-- validateGlobPatterns (validator/index.ts 356-402): the issue-array
loop over the extracted patterns, with the glob resolver passed in as
the external collaborator it is. -/
def validateGlobPatterns (g : String → Except Unit (List String)) (projectRoot : String)
    (config : ExistingConfig) : List ValidationIssue :=
  (extractGlobPatterns config).foldl (fun issues pattern =>
    if pattern = "**/*" ∨ pattern = "**" then issues
    else if containsDotDot pattern || isAbsolutePath pattern then
      issues ++ [traversalIssue config pattern]
    else
      match g (joinPath projectRoot pattern) with
      | Except.ok ms =>
        if ms.length = 0 then issues ++ [deadPatternIssue config pattern] else issues
      | Except.error _ => issues ++ [invalidGlobIssue config pattern]) []

theorem foldl_append_eq_flatMap {α β : Type _} (f : α → List β) (l : List α)
    (init : List β) :
    l.foldl (fun acc x => acc ++ f x) init = init ++ l.flatMap f := by
  induction l generalizing init with
  | nil => simp
  | cons x xs ih => simp [ih, List.append_assoc]

/-- C6: for every extracted glob pattern, the liveness check behaves as
specified — the loop contributes, pattern by pattern, the result of
`globPatternIssues`; universal patterns contribute no issue regardless
of project contents; traversal/absolute patterns contribute one
error-severity issue without consulting the resolver; zero-match
patterns and resolver failures each contribute one warning-severity
issue; matched patterns contribute nothing. -/
theorem validateGlobPatterns_liveness (g gOther : String → Except Unit (List String))
    (projectRoot : String) (config : ExistingConfig) :
    validateGlobPatterns g projectRoot config =
      (extractGlobPatterns config).flatMap (globPatternIssues g projectRoot config) ∧
    (∀ p, p = "**/*" ∨ p = "**" → globPatternIssues g projectRoot config p = []) ∧
    (∀ p, ¬(p = "**/*" ∨ p = "**") → (containsDotDot p || isAbsolutePath p) = true →
      globPatternIssues g projectRoot config p = [traversalIssue config p] ∧
      (traversalIssue config p).severity = .error ∧
      globPatternIssues g projectRoot config p =
        globPatternIssues gOther projectRoot config p) ∧
    (∀ p, ¬(p = "**/*" ∨ p = "**") → (containsDotDot p || isAbsolutePath p) = false →
      g (joinPath projectRoot p) = Except.ok [] →
      globPatternIssues g projectRoot config p = [deadPatternIssue config p] ∧
      (deadPatternIssue config p).severity = .warning) ∧
    (∀ p ms, ¬(p = "**/*" ∨ p = "**") → (containsDotDot p || isAbsolutePath p) = false →
      g (joinPath projectRoot p) = Except.ok ms → ms ≠ [] →
      globPatternIssues g projectRoot config p = []) ∧
    (∀ p e, ¬(p = "**/*" ∨ p = "**") → (containsDotDot p || isAbsolutePath p) = false →
      g (joinPath projectRoot p) = Except.error e →
      globPatternIssues g projectRoot config p = [invalidGlobIssue config p] ∧
      (invalidGlobIssue config p).severity = .warning) := by
  refine ⟨?_, ?_, ?_, ?_, ?_, ?_⟩
  · have hbody : (fun (issues : List ValidationIssue) (pattern : String) =>
        if pattern = "**/*" ∨ pattern = "**" then issues
        else if containsDotDot pattern || isAbsolutePath pattern then
          issues ++ [traversalIssue config pattern]
        else
          match g (joinPath projectRoot pattern) with
          | Except.ok ms =>
            if ms.length = 0 then issues ++ [deadPatternIssue config pattern] else issues
          | Except.error _ => issues ++ [invalidGlobIssue config pattern]) =
        (fun issues pattern => issues ++ globPatternIssues g projectRoot config pattern) := by
      funext issues pattern
      unfold globPatternIssues
      by_cases h1 : pattern = "**/*" ∨ pattern = "**"
      · simp [h1]
      · rw [if_neg h1, if_neg h1]
        cases hcc : containsDotDot pattern || isAbsolutePath pattern with
        | true => simp
        | false =>
          simp only [Bool.false_eq_true, if_false]
          cases hg : g (joinPath projectRoot pattern) with
          | ok ms =>
            by_cases h3 : ms.length = 0
            · simp [h3]
            · simp [h3]
          | error e => simp
    rw [validateGlobPatterns, hbody, foldl_append_eq_flatMap, List.nil_append]
  · intro p hp
    unfold globPatternIssues
    rw [if_pos hp]
  · intro p hp htrav
    unfold globPatternIssues
    rw [if_neg hp, if_neg hp, if_pos htrav, if_pos htrav]
    exact ⟨rfl, rfl, rfl⟩
  · intro p hp htrav hg
    unfold globPatternIssues
    rw [if_neg hp, htrav]
    simp only [Bool.false_eq_true, if_false]
    rw [hg]
    exact ⟨rfl, rfl⟩
  · intro p ms hp htrav hg hne
    unfold globPatternIssues
    rw [if_neg hp, htrav]
    simp only [Bool.false_eq_true, if_false]
    rw [hg]
    have hl : ¬ms.length = 0 := fun h => hne (List.length_eq_zero.mp h)
    simp [hl]
  · intro p e hp htrav hg
    unfold globPatternIssues
    rw [if_neg hp, htrav]
    simp only [Bool.false_eq_true, if_false]
    rw [hg]
    exact ⟨rfl, rfl⟩

/-- A Cursor rule whose only glob pattern contains parent-directory
traversal. -/
def traversalConfig : ExistingConfig :=
  { tool := .cursor
    filePath := "bad.mdc"
    sizeBytes := 30
    content := some "---\nglobs: ../x\n---\nbody" }

/-- Witness for C6: on the concrete traversal pattern the validator
produces exactly the error-severity traversal issue. -/
theorem validateGlobPatterns_liveness_witness :
    validateGlobPatterns (fun _ => Except.ok []) "/proj" traversalConfig =
      [traversalIssue traversalConfig "../x"] := by
  have h := validateGlobPatterns_liveness (fun _ => Except.ok [])
    (fun _ => Except.ok []) "/proj" traversalConfig
  rw [h.1]
  have he : extractGlobPatterns traversalConfig = ["../x"] := by decide
  rw [he]
  have ht := (h.2.2.1 "../x" (by decide) (by decide)).1
  simp [List.flatMap_cons, List.flatMap_nil, ht]

-- ─────────────────────────────────────────────────────────────
-- C5: the prune analyzer (src/pruner/index.ts)
-- ─────────────────────────────────────────────────────────────

/-- Prune reason, "dead-globs" | "empty-content". -/
inductive PruneReason where
  | deadGlobs | emptyContent
deriving DecidableEq, Inhabited

/-- A prune candidate (interface PruneTarget). -/
structure PruneTarget where
  tool : ToolTarget
  file : String
  reason : PruneReason
  message : String
  sizeBytes : Nat
deriving DecidableEq, Inhabited

/-- The prune analysis result (interface PruneResult). -/
structure PruneResult where
  configsScanned : Nat
  pruneTargets : List PruneTarget
deriving DecidableEq

/-- The frontmatter-stripped body of a config (pruner lines 297-301). -/
def configBody (config : ExistingConfig) : String :=
  let content := config.content.getD ""
  let fm := parseFrontmatter content
  if fm.found then fm.body else content

/-- The length of the body with all whitespace stripped
(`body.replace(/\s/g, "").length`). -/
def meaningfulLength (config : ExistingConfig) : Nat :=
  ((configBody config).data.filter (fun c => !(isJsWs c))).length

/-- checkEmptyContent (pruner lines 296-316): flags a config whose
whitespace-stripped frontmatter-stripped body has fewer than 10
characters. -/
def checkEmptyContent (config : ExistingConfig) : Option PruneTarget :=
  if meaningfulLength config < 10 then
    some { tool := config.tool
           file := config.filePath
           reason := .emptyContent
           message := "Config has " ++ toString (meaningfulLength config) ++
             " chars of content (effectively empty)"
           sizeBytes := config.sizeBytes }
  else none

/-- checkDeadGlobs (pruner lines 253-289): no patterns or only universal
patterns give no candidate; otherwise, with traversal/absolute patterns
skipped and a resolver exception contributing zero matches, a total
match count of zero yields a dead-globs candidate. -/
def checkDeadGlobs (g : String → Except Unit (List String)) (projectRoot : String)
    (config : ExistingConfig) : Option PruneTarget :=
  let patterns := extractGlobPatterns config
  if patterns.length = 0 then none
  else
    let specificPatterns := patterns.filter (fun p => decide (p ≠ "**/*" ∧ p ≠ "**"))
    if specificPatterns.length = 0 then none
    else
      let totalMatches : Nat := (specificPatterns.map (fun pattern =>
        if containsDotDot pattern || isAbsolutePath pattern then 0
        else match g (joinPath projectRoot pattern) with
          | Except.ok ms => ms.length
          | Except.error _ => 0)).sum
      if totalMatches = 0 then
        some { tool := config.tool
               file := config.filePath
               reason := .deadGlobs
               message := "All glob patterns match 0 files: " ++
                 String.intercalate ", " specificPatterns
               sizeBytes := config.sizeBytes }
      else none

/-- The per-config body of the findPruneTargets loop (lines 329-342):
the empty-content candidate short-circuits (continue), the dead-glob
check runs only otherwise. -/
def pruneCheck (g : String → Except Unit (List String)) (projectRoot : String)
    (config : ExistingConfig) : List PruneTarget :=
  match checkEmptyContent config with
  | some e => [e]
  | none =>
    match checkDeadGlobs g projectRoot config with
    | some d => [d]
    | none => []

/-- findPruneTargets (pruner lines 323-348), over the scanned configs. -/
def findPruneTargets (g : String → Except Unit (List String)) (projectRoot : String)
    (configs : List ExistingConfig) : PruneResult :=
  { configsScanned := configs.length
    pruneTargets := configs.flatMap (pruneCheck g projectRoot) }

theorem checkEmptyContent_shape {config : ExistingConfig} {e : PruneTarget}
    (h : checkEmptyContent config = some e) :
    e.file = config.filePath ∧ e.reason = .emptyContent := by
  unfold checkEmptyContent at h
  split at h
  · cases h
    exact ⟨rfl, rfl⟩
  · cases h

theorem checkDeadGlobs_shape {g : String → Except Unit (List String)}
    {projectRoot : String} {config : ExistingConfig} {d : PruneTarget}
    (h : checkDeadGlobs g projectRoot config = some d) :
    d.file = config.filePath ∧ d.reason = .deadGlobs := by
  simp only [checkDeadGlobs] at h
  split at h
  · cases h
  · split at h
    · cases h
    · split at h
      · cases h
        exact ⟨rfl, rfl⟩
      · cases h

theorem pruneCheck_file {g : String → Except Unit (List String)}
    {projectRoot : String} {config : ExistingConfig} {t : PruneTarget}
    (h : t ∈ pruneCheck g projectRoot config) : t.file = config.filePath := by
  unfold pruneCheck at h
  cases he : checkEmptyContent config with
  | some e =>
    rw [he] at h
    rw [List.mem_singleton.mp h]
    exact (checkEmptyContent_shape he).1
  | none =>
    rw [he] at h
    cases hd : checkDeadGlobs g projectRoot config with
    | some d =>
      rw [hd] at h
      rw [List.mem_singleton.mp h]
      exact (checkDeadGlobs_shape hd).1
    | none =>
      rw [hd] at h
      cases h

theorem pruneCheck_self_filter (g : String → Except Unit (List String))
    (projectRoot : String) (config : ExistingConfig) :
    (pruneCheck g projectRoot config).filter (fun t => t.file == config.filePath) =
      pruneCheck g projectRoot config := by
  rw [List.filter_eq_self]
  intro t ht
  simp only [beq_iff_eq]
  exact pruneCheck_file ht

theorem pruneCheck_other_filter {g : String → Except Unit (List String)}
    {projectRoot : String} {c config : ExistingConfig}
    (hne : c.filePath ≠ config.filePath) :
    (pruneCheck g projectRoot c).filter (fun t => t.file == config.filePath) = [] := by
  rw [List.filter_eq_nil_iff]
  intro t ht
  simp only [beq_iff_eq]
  rw [pruneCheck_file ht]
  exact hne

theorem filter_flatMap_pruneCheck (g : String → Except Unit (List String))
    (projectRoot : String) (configs : List ExistingConfig)
    (hnd : (configs.map (·.filePath)).Nodup) (config : ExistingConfig)
    (hc : config ∈ configs) :
    (configs.flatMap (pruneCheck g projectRoot)).filter
        (fun t => t.file == config.filePath) =
      pruneCheck g projectRoot config := by
  induction configs with
  | nil => cases hc
  | cons c rest ih =>
    simp only [List.map_cons, List.nodup_cons] at hnd
    simp only [List.flatMap_cons, List.filter_append]
    rcases List.mem_cons.mp hc with rfl | hc2
    · rw [pruneCheck_self_filter]
      have hrest : (rest.flatMap (pruneCheck g projectRoot)).filter
          (fun t => t.file == config.filePath) = [] := by
        rw [List.filter_eq_nil_iff]
        intro t ht
        rcases List.mem_flatMap.mp ht with ⟨c2, hc2m, ht2⟩
        simp only [beq_iff_eq]
        rw [pruneCheck_file ht2]
        intro hcontra
        exact hnd.1 (hcontra ▸ List.mem_map_of_mem (·.filePath) hc2m)
      rw [hrest, List.append_nil]
    · have hcc : c.filePath ≠ config.filePath := by
        intro hcontra
        exact hnd.1 (hcontra ▸ List.mem_map_of_mem (·.filePath) hc2)
      rw [pruneCheck_other_filter hcc, List.nil_append]
      exact ih hnd.2 hc2

/-- C5: each artifact yields at most one prune candidate, in fixed
precedence — an empty-content hit (whitespace-stripped body shorter
than 10 characters) is the unique candidate for that file and skips the
dead-glob check; only otherwise can the file's candidate carry the
dead-globs reason, so no file is ever reported with both reasons. -/
theorem findPruneTargets_at_most_one (g : String → Except Unit (List String))
    (projectRoot : String) (configs : List ExistingConfig)
    (hnd : (configs.map (·.filePath)).Nodup) (config : ExistingConfig)
    (hc : config ∈ configs) :
    ((findPruneTargets g projectRoot configs).pruneTargets.filter
        (fun t => t.file == config.filePath)).length ≤ 1 ∧
    (∀ e, checkEmptyContent config = some e →
      (findPruneTargets g projectRoot configs).pruneTargets.filter
          (fun t => t.file == config.filePath) = [e] ∧
        e.reason = .emptyContent) ∧
    (checkEmptyContent config = none →
      ∀ t ∈ (findPruneTargets g projectRoot configs).pruneTargets.filter
          (fun t => t.file == config.filePath), t.reason = .deadGlobs) ∧
    ((checkEmptyContent config).isSome ↔ meaningfulLength config < 10) := by
  have hkey : (findPruneTargets g projectRoot configs).pruneTargets.filter
      (fun t => t.file == config.filePath) = pruneCheck g projectRoot config :=
    filter_flatMap_pruneCheck g projectRoot configs hnd config hc
  refine ⟨?_, ?_, ?_, ?_⟩
  · rw [hkey]
    unfold pruneCheck
    cases checkEmptyContent config with
    | some e => simp
    | none =>
      cases checkDeadGlobs g projectRoot config with
      | some d => simp
      | none => simp
  · intro e he
    rw [hkey]
    unfold pruneCheck
    rw [he]
    exact ⟨rfl, (checkEmptyContent_shape he).2⟩
  · intro he t ht
    rw [hkey] at ht
    unfold pruneCheck at ht
    rw [he] at ht
    cases hd : checkDeadGlobs g projectRoot config with
    | some d =>
      rw [hd] at ht
      rw [List.mem_singleton.mp ht]
      exact (checkDeadGlobs_shape hd).2
    | none =>
      rw [hd] at ht
      cases ht
  · unfold checkEmptyContent
    by_cases h : meaningfulLength config < 10
    · simp [h]
    · simp [h]

/-- A config whose body is effectively empty. -/
def emptyishConfig : ExistingConfig :=
  { tool := .claude
    filePath := "CLAUDE.md"
    sizeBytes := 3
    content := some "hi\n" }

/-- Witness for C5 at a one-artifact scan whose body is effectively
empty: the artifact is flagged exactly once, with the empty-content
reason. -/
theorem findPruneTargets_at_most_one_witness :
    ((findPruneTargets (fun _ => Except.ok []) "/proj" [emptyishConfig]).pruneTargets.filter
      (fun t => t.file == emptyishConfig.filePath)).length ≤ 1 :=
  (findPruneTargets_at_most_one (fun _ => Except.ok []) "/proj" [emptyishConfig]
    (by decide) emptyishConfig (by decide)).1
